import Mathlib

/-!
Shallow embedding of the anton task-execution agent's core
(`anton/core/executor.py`, `anton/core/estimator.py`, `anton/core/agent.py`,
`anton/skill/base.py`, `anton/skill/builder.py`, `anton/skill/tester.py`,
`anton/skill/spec.py`, `anton/skill/registry.py`, `anton/events/types.py`,
`anton/scratchpad.py`) together with proofs about the specification claims.

Modelling conventions:
- Python floats (durations, ETAs) are modelled as exact rationals.
- Python `dict`s are association lists preserving insertion order.
- A fallible Python call is an `Except String` value; `Except.error e`
  models a raised exception whose `str(exc)` is `e`.
- Wall-clock time advances only while a skill executes; each skill model
  carries the duration its execution takes, and `time.monotonic()` reads
  off the accumulated durations.
-/

set_option autoImplicit false

namespace Anton

/-- A Python value, as far as the claims need it: the scalar shapes that appear
in plan parameters and skill outputs. -/
inductive Value where
  | vStr (s : String)
  | vInt (n : Int)
  | vNum (q : ℚ)
  | vBool (b : Bool)
  deriving DecidableEq

/-- `anton/skill/base.py` — `SkillResult(output, metadata)`. Only string-valued
metadata is modelled: the `"error"` key, the only one any claim touches, always
holds a string in the source. -/
structure SkillResult where
  output : Option Value
  metadata : List (String × String)
  deriving DecidableEq

/-- The JSON-schema dict built by `_build_parameters_schema` in
`anton/skill/base.py`: `{"type": "object", "properties": {p: {"type": t}},
"required": [...]}`, modelled by its `properties` (parameter name → type
string) and `required` lists. -/
structure ParamsSchema where
  properties : List (String × String)
  required : List String
  deriving DecidableEq

/-- `anton/skill/base.py` — `SkillInfo`. `execute` may raise (modelled as
`Except.error` carrying the exception's message); `duration` is the wall-clock
time the execution takes, observed by the executor via `time.monotonic()`. -/
structure SkillInfo where
  name : String
  description : String
  parameters : ParamsSchema
  execute : List (String × Value) → Except String SkillResult
  duration : List (String × Value) → ℚ
  source_path : Option String := none

/-- `anton/skill/registry.py` — `SkillRegistry._skills`, an insertion-ordered
dict from name to `SkillInfo`. -/
structure SkillRegistry where
  skills : List (String × SkillInfo)

/-- `SkillRegistry.get` — `self._skills.get(name)`, `None` for unknown names. -/
def SkillRegistry.get (r : SkillRegistry) (name : String) : Option SkillInfo :=
  r.skills.lookup name

/-- Python dict assignment `d[k] = v`: overwrite in place when the key exists,
append otherwise. -/
def dictInsert : List (String × SkillInfo) → String → SkillInfo → List (String × SkillInfo)
  | [], k, v => [(k, v)]
  | (k0, v0) :: rest, k, v =>
    if k0 = k then (k, v) :: rest else (k0, v0) :: dictInsert rest k v

/-- `SkillRegistry.register` — `self._skills[skill.name] = skill`. -/
def SkillRegistry.register (r : SkillRegistry) (sk : SkillInfo) : SkillRegistry :=
  ⟨dictInsert r.skills sk.name sk⟩

/-- `anton/events/types.py` — the `Phase` enum. -/
inductive Phase where
  | memoryRecall
  | planning
  | skillDiscovery
  | skillBuilding
  | executing
  | complete
  | failed
  deriving DecidableEq

/-- `anton/events/types.py` — the four `AntonEvent` variants. -/
inductive AntonEvent where
  | statusUpdate (phase : Phase) (message : String) (eta_seconds : Option ℚ)
  | taskComplete (summary : String)
  | taskFailed (error_summary : String)
  | promptUser (question : String)
  deriving DecidableEq

/-- `anton/core/planner.py` — `PlanStep`. -/
structure PlanStep where
  skill_name : String
  description : String
  parameters : List (String × Value) := []
  depends_on : List Nat := []
  deriving DecidableEq

/-- `anton/core/planner.py` — `Plan`. -/
structure Plan where
  reasoning : String
  steps : List PlanStep
  skills_to_create : List String := []
  estimated_time_seconds : ℚ := 0
  deriving DecidableEq

/-- `anton/core/executor.py` — `StepResult`. -/
structure StepResult where
  step_index : Nat
  skill_name : String
  result : SkillResult
  duration_seconds : ℚ
  deriving DecidableEq

/-- `anton/core/executor.py` — `ExecutionResult`. -/
structure ExecutionResult where
  step_results : List StepResult
  total_duration_seconds : ℚ
  deriving DecidableEq

/-- `anton/skill/spec.py` — `SkillSpec`. -/
structure SkillSpec where
  name : String
  description : String
  parameters : List (String × String) := []
  expected_output : String := ""
  test_inputs : List (String × String) := []
  deriving DecidableEq

/-- `anton/skill/tester.py` — `TestResult`. -/
structure TestResult where
  passed : Bool
  stage : String
  error : String := ""
  deriving DecidableEq

/-! ## Time estimator (`anton/core/estimator.py`) -/

/-- `TimeEstimator._history : defaultdict(list)` — insertion-ordered map from
skill name to the list of observed durations. -/
abbrev History := List (String × List ℚ)

/-- Read access with the `defaultdict` default: absent keys read as `[]`. -/
def histGet (h : History) (n : String) : List ℚ := (h.lookup n).getD []

/-- `self._history[skill_name].append(d)` on a `defaultdict(list)`: append to
the existing entry, creating it when absent. -/
def dictAppendDur : History → String → ℚ → History
  | [], n, d => [(n, [d])]
  | (k, ds) :: rest, n, d =>
    if k = n then (k, ds ++ [d]) :: rest else (k, ds) :: dictAppendDur rest n d

/-- `TimeEstimator.record`. -/
def TimeEstimator.record (h : History) (skill_name : String) (duration_seconds : ℚ) : History :=
  dictAppendDur h skill_name duration_seconds

/-- `TimeEstimator.estimate` — the arithmetic mean of the recorded durations,
`None` when there is no history (`self._history.get(name)` is `None` or `[]`). -/
def TimeEstimator.estimate (h : History) (skill_name : String) : Option ℚ :=
  match h.lookup skill_name with
  | none => none
  | some ds => if ds = [] then none else some (ds.sum / (ds.length : ℚ))

/-- `TimeEstimator.estimate_plan` — the `total`/`has_any` accumulation loop. -/
def TimeEstimator.estimate_plan (h : History) (skill_names : List String) : Option ℚ :=
  let p := skill_names.foldl
    (fun (acc : ℚ × Bool) name =>
      match TimeEstimator.estimate h name with
      | some est => (acc.1 + est, true)
      | none => acc)
    ((0 : ℚ), false)
  if p.2 = true then some p.1 else none

theorem estimatePlanFold (h : History) (names : List String) (acc : ℚ × Bool) :
    names.foldl
      (fun (acc : ℚ × Bool) name =>
        match TimeEstimator.estimate h name with
        | some est => (acc.1 + est, true)
        | none => acc)
      acc
    = (acc.1 + (names.filterMap (TimeEstimator.estimate h)).sum,
       acc.2 || names.any (fun n => (TimeEstimator.estimate h n).isSome)) := by
  induction names generalizing acc with
  | nil => simp
  | cons n rest ih =>
    cases hn : TimeEstimator.estimate h n with
    | none => simp [List.foldl_cons, hn, ih, List.filterMap_cons, List.any_cons]
    | some e =>
      simp [List.foldl_cons, hn, ih, List.filterMap_cons, List.any_cons, add_assoc]

theorem estimate_eq_none_iff (h : History) (n : String) :
    TimeEstimator.estimate h n = none ↔ histGet h n = [] := by
  unfold TimeEstimator.estimate histGet
  cases hl : h.lookup n with
  | none => simp
  | some ds => cases ds <;> simp

theorem estimate_plan_eq (h : History) (names : List String) :
    TimeEstimator.estimate_plan h names
      = if names.any (fun n => (TimeEstimator.estimate h n).isSome)
        then some ((names.filterMap (TimeEstimator.estimate h)).sum)
        else none := by
  unfold TimeEstimator.estimate_plan
  rw [estimatePlanFold]
  simp

/-- C7: `estimate_plan` sums the arithmetic-mean durations of exactly the
listed names that have recorded history (each contributing `estimate(name)`,
names without history contributing nothing), and returns `None` iff no listed
name has any history; in particular a list of one name with recorded history
`[1.0]` and one name with no history yields `1.0`. -/
theorem C7_estimate_plan_partial_coverage (h : History) (names : List String) :
    (TimeEstimator.estimate_plan h names = none ↔ ∀ n ∈ names, histGet h n = []) ∧
    (∀ v, TimeEstimator.estimate_plan h names = some v →
      v = (names.filterMap (TimeEstimator.estimate h)).sum) ∧
    TimeEstimator.estimate_plan (TimeEstimator.record [] "known_skill" 1)
      ["known_skill", "unknown_skill"] = some 1 := by
  refine ⟨?_, ?_, ?_⟩
  · rw [estimate_plan_eq]
    by_cases hany : names.any (fun n => (TimeEstimator.estimate h n).isSome)
    · simp only [hany, if_true]
      constructor
      · intro hsome
        exact absurd hsome (by simp)
      · intro hall
        exfalso
        rcases List.any_eq_true.mp hany with ⟨n, hn, hs⟩
        have he := (estimate_eq_none_iff h n).mpr (hall n hn)
        rw [he] at hs
        simp at hs
    · simp only [hany, if_false]
      constructor
      · intro _ n hn
        rw [← estimate_eq_none_iff]
        by_contra hne
        exact hany (List.any_eq_true.mpr ⟨n, hn, by simpa using Option.ne_none_iff_isSome.mp hne⟩)
      · intro _
        rfl
  · intro v hv
    rw [estimate_plan_eq] at hv
    by_cases hany : names.any (fun n => (TimeEstimator.estimate h n).isSome)
    · simp only [hany, if_true] at hv
      exact (Option.some_inj.mp hv).symm
    · simp [hany] at hv
  · simp [TimeEstimator.estimate_plan, TimeEstimator.record, dictAppendDur,
      TimeEstimator.estimate, List.lookup]

/-- Witness for C7 at a concrete history and name list. -/
theorem C7_estimate_plan_partial_coverage_witness :
    TimeEstimator.estimate_plan [("a", [2, 4]), ("b", [])] ["a", "b", "c"] = some 3 ∧
    (3 : ℚ) = ((["a", "b", "c"].filterMap
      (TimeEstimator.estimate [("a", [2, 4]), ("b", [])])).sum) := by
  have h := C7_estimate_plan_partial_coverage [("a", [2, 4]), ("b", [])] ["a", "b", "c"]
  have heval : TimeEstimator.estimate_plan [("a", [2, 4]), ("b", [])] ["a", "b", "c"]
      = some 3 := by
    simp [TimeEstimator.estimate_plan, TimeEstimator.estimate, List.lookup]
    norm_num
  exact ⟨heval, h.2.1 3 heval⟩

/-! ## Executor (`anton/core/executor.py`) -/

/-- The `f"Step {i + 1}/{total_steps}: {step.description}"` status message
(`i` is the 0-based loop index). -/
def stepMsg (i N : Nat) (description : String) : String :=
  "Step " ++ toString (i + 1) ++ "/" ++ toString N ++ ": " ++ description

/-- The live ETA computed at the top of the step loop: the caller-supplied
estimate for the first step (possibly absent), then
`(elapsed / i) * (total_steps - i)`.  `i < N` inside the loop, so the
truncated `Nat` subtraction agrees with Python's. -/
def stepEta (eta0 : Option ℚ) (N i : Nat) (clock : ℚ) : Option ℚ :=
  if i = 0 then eta0
  else some (clock / (i : ℚ) * ((N - i : Nat) : ℚ))

/-- The body of `Executor.execute_plan`'s `for` loop.  `N` is `total_steps`,
`i` the 0-based index of the next step, `clock` the time elapsed since
`total_start`.  Returns the published `executing` statuses together with
either the step results and the final clock, or the message of an exception
propagating out of `skill.execute` (the source has no `try` around it). -/
def execLoop (reg : SkillRegistry) (N : Nat) (eta0 : Option ℚ) :
    List PlanStep → Nat → ℚ → List AntonEvent × Except String (List StepResult × ℚ)
  | [], _, clock => ([], Except.ok ([], clock))
  | step :: rest, i, clock =>
    let ev := AntonEvent.statusUpdate Phase.executing (stepMsg i N step.description)
      (stepEta eta0 N i clock)
    match reg.get step.skill_name with
    | none =>
      let sr : StepResult :=
        ⟨i, step.skill_name,
         ⟨none, [("error", "Skill not found: " ++ step.skill_name)]⟩, 0⟩
      let out := execLoop reg N eta0 rest (i + 1) clock
      (ev :: out.1, out.2.map (fun p => (sr :: p.1, p.2)))
    | some sk =>
      match sk.execute step.parameters with
      | Except.error e => ([ev], Except.error e)
      | Except.ok res =>
        let d := sk.duration step.parameters
        let sr : StepResult := ⟨i, step.skill_name, res, d⟩
        let out := execLoop reg N eta0 rest (i + 1) (clock + d)
        (ev :: out.1, out.2.map (fun p => (sr :: p.1, p.2)))

/-- `Executor.execute_plan` — the loop started at index 0 and clock 0;
`total_duration_seconds` is the final clock reading. -/
def Executor.execute_plan (reg : SkillRegistry) (plan : Plan)
    (eta_seconds : Option ℚ := none) : List AntonEvent × Except String ExecutionResult :=
  let r := execLoop reg plan.steps.length eta_seconds plan.steps 0 0
  (r.1, r.2.map (fun p => ⟨p.1, p.2⟩))

/-- The duration `execute_plan` observes for one step: `0` for a missing
skill (the synthesized zero-duration result), the skill's wall-clock duration
otherwise. -/
def stepDuration (reg : SkillRegistry) (step : PlanStep) : ℚ :=
  match reg.get step.skill_name with
  | none => 0
  | some sk =>
    match sk.execute step.parameters with
    | Except.ok _ => sk.duration step.parameters
    | Except.error _ => 0

/-- The `StepResult` recorded for index `i` when no exception propagates. -/
def stepResultOf (reg : SkillRegistry) (i : Nat) (step : PlanStep) : StepResult :=
  match reg.get step.skill_name with
  | none =>
    ⟨i, step.skill_name,
     ⟨none, [("error", "Skill not found: " ++ step.skill_name)]⟩, 0⟩
  | some sk =>
    match sk.execute step.parameters with
    | Except.ok res => ⟨i, step.skill_name, res, sk.duration step.parameters⟩
    | Except.error _ => ⟨i, step.skill_name, ⟨none, []⟩, 0⟩

def durSum (reg : SkillRegistry) (steps : List PlanStep) : ℚ :=
  (steps.map (stepDuration reg)).sum

def specEvents (reg : SkillRegistry) (N : Nat) (eta0 : Option ℚ) :
    List PlanStep → Nat → ℚ → List AntonEvent
  | [], _, _ => []
  | step :: rest, i, clock =>
    AntonEvent.statusUpdate Phase.executing (stepMsg i N step.description)
        (stepEta eta0 N i clock)
      :: specEvents reg N eta0 rest (i + 1) (clock + stepDuration reg step)

def specResults (reg : SkillRegistry) : List PlanStep → Nat → List StepResult
  | [], _ => []
  | step :: rest, i => stepResultOf reg i step :: specResults reg rest (i + 1)

/-- Every skill that is present in the registry executes without raising. -/
def StepsSucceed (reg : SkillRegistry) (steps : List PlanStep) : Prop :=
  ∀ step ∈ steps, ∀ sk, reg.get step.skill_name = some sk →
    ∃ res, sk.execute step.parameters = Except.ok res

theorem execLoop_ok (reg : SkillRegistry) (N : Nat) (eta0 : Option ℚ)
    (steps : List PlanStep) (i : Nat) (clock : ℚ)
    (hs : StepsSucceed reg steps) :
    execLoop reg N eta0 steps i clock
      = (specEvents reg N eta0 steps i clock,
         Except.ok (specResults reg steps i, clock + durSum reg steps)) := by
  induction steps generalizing i clock with
  | nil => simp [execLoop, specEvents, specResults, durSum]
  | cons step rest ih =>
    have htail : StepsSucceed reg rest := fun s hsm => hs s (List.mem_cons_of_mem _ hsm)
    cases hget : reg.get step.skill_name with
    | none =>
      rw [execLoop]
      simp only [hget]
      rw [ih _ _ htail]
      simp [specEvents, specResults, durSum, stepDuration, stepResultOf, hget, Except.map]
    | some sk =>
      obtain ⟨res, hres⟩ := hs step (List.mem_cons_self _ _) sk hget
      rw [execLoop]
      simp only [hget, hres]
      rw [ih _ _ htail]
      simp [specEvents, specResults, durSum, stepDuration, stepResultOf, hget, hres,
        Except.map, add_assoc]

theorem execLoop_of_ok (reg : SkillRegistry) (N : Nat) (eta0 : Option ℚ)
    (steps : List PlanStep) (i : Nat) (clock : ℚ) (evs : List AntonEvent)
    (p : List StepResult × ℚ)
    (h : execLoop reg N eta0 steps i clock = (evs, Except.ok p)) :
    evs = specEvents reg N eta0 steps i clock
      ∧ p = (specResults reg steps i, clock + durSum reg steps) := by
  induction steps generalizing i clock evs p with
  | nil =>
    rw [execLoop] at h
    obtain ⟨h1, h2⟩ := Prod.mk.injEq .. ▸ h
    cases h2
    simp [specEvents, specResults, durSum, ← h1]
  | cons step rest ih =>
    rw [execLoop] at h
    cases hget : reg.get step.skill_name with
    | none =>
      simp only [hget] at h
      cases hout : (execLoop reg N eta0 rest (i + 1) clock).2 with
      | error e => rw [hout] at h; simp [Except.map] at h
      | ok q =>
        rw [hout] at h
        simp only [Except.map] at h
        obtain ⟨h1, h2⟩ := Prod.mk.injEq .. ▸ h
        have hrec := ih (i + 1) clock (execLoop reg N eta0 rest (i + 1) clock).1 q
          (by rw [← hout])
        injection h2 with h2
        subst h1 h2
        simp [specEvents, specResults, durSum, stepDuration, stepResultOf, hget,
          hrec.1, hrec.2]
    | some sk =>
      simp only [hget] at h
      cases hres : sk.execute step.parameters with
      | error e => rw [hres] at h; simp at h
      | ok res =>
        rw [hres] at h
        simp only at h
        cases hout : (execLoop reg N eta0 rest (i + 1)
            (clock + sk.duration step.parameters)).2 with
        | error e => rw [hout] at h; simp [Except.map] at h
        | ok q =>
          rw [hout] at h
          simp only [Except.map] at h
          obtain ⟨h1, h2⟩ := Prod.mk.injEq .. ▸ h
          have hrec := ih (i + 1) (clock + sk.duration step.parameters)
            (execLoop reg N eta0 rest (i + 1) (clock + sk.duration step.parameters)).1 q
            (by rw [← hout])
          injection h2 with h2
          subst h1 h2
          simp [specEvents, specResults, durSum, stepDuration, stepResultOf, hget, hres,
            hrec.1, hrec.2, add_assoc]

theorem specResults_length (reg : SkillRegistry) (steps : List PlanStep) (i : Nat) :
    (specResults reg steps i).length = steps.length := by
  induction steps generalizing i with
  | nil => rfl
  | cons s rest ih => simp [specResults, ih]

theorem specResults_get (reg : SkillRegistry) (steps : List PlanStep) (i k : Nat)
    (hk : k < steps.length) :
    (specResults reg steps i)[k]? = some (stepResultOf reg (i + k) steps[k]) := by
  induction steps generalizing i k with
  | nil => simp at hk
  | cons s rest ih =>
    cases k with
    | zero => simp [specResults]
    | succ k' =>
      have hk' : k' < rest.length := by simpa using hk
      have harith : i + 1 + k' = i + (k' + 1) := by omega
      simp [specResults, ih _ _ hk', harith]

theorem specEvents_length (reg : SkillRegistry) (N : Nat) (eta0 : Option ℚ)
    (steps : List PlanStep) (i : Nat) (clock : ℚ) :
    (specEvents reg N eta0 steps i clock).length = steps.length := by
  induction steps generalizing i clock with
  | nil => rfl
  | cons s rest ih => simp [specEvents, ih]

theorem specEvents_get (reg : SkillRegistry) (N : Nat) (eta0 : Option ℚ)
    (steps : List PlanStep) (i k : Nat) (clock : ℚ) (hk : k < steps.length) :
    (specEvents reg N eta0 steps i clock)[k]?
      = some (AntonEvent.statusUpdate Phase.executing
          (stepMsg (i + k) N steps[k].description)
          (stepEta eta0 N (i + k) (clock + durSum reg (steps.take k)))) := by
  induction steps generalizing i k clock with
  | nil => simp at hk
  | cons s rest ih =>
    cases k with
    | zero => simp [specEvents, durSum]
    | succ k' =>
      have hk' : k' < rest.length := by simpa using hk
      have harith : i + 1 + k' = i + (k' + 1) := by omega
      simp [specEvents, ih _ _ _ hk', harith, durSum, add_assoc]

/-- C2: for every step whose skill name is absent from the registry,
`execute_plan` (assuming the skills that are present execute without raising,
cf. C3) returns an `ExecutionResult` with one `StepResult` per plan step, and
the missing step's entry is
`SkillResult(output=None, metadata={"error": "Skill not found: <name>"})`
with zero duration — a missing skill does not abort the plan. -/
theorem C2_missing_skill_step (reg : SkillRegistry) (plan : Plan) (eta : Option ℚ)
    (hs : StepsSucceed reg plan.steps) :
    ∃ evs r, Executor.execute_plan reg plan eta = (evs, Except.ok r) ∧
      r.step_results.length = plan.steps.length ∧
      ∀ i, (hi : i < plan.steps.length) →
        reg.get plan.steps[i].skill_name = none →
        r.step_results[i]? = some
          ⟨i, plan.steps[i].skill_name,
           ⟨none, [("error", "Skill not found: " ++ plan.steps[i].skill_name)]⟩, 0⟩ := by
  refine ⟨specEvents reg plan.steps.length eta plan.steps 0 0,
    ⟨specResults reg plan.steps 0, 0 + durSum reg plan.steps⟩, ?_, ?_, ?_⟩
  · unfold Executor.execute_plan
    rw [execLoop_ok _ _ _ _ _ _ hs]
    rfl
  · exact specResults_length reg plan.steps 0
  · intro i hi hnone
    rw [specResults_get reg plan.steps 0 i hi]
    simp [stepResultOf, hnone]

def C2reg : SkillRegistry := ⟨[]⟩

def C2plan : Plan :=
  { reasoning := "r",
    steps := [{ skill_name := "a", description := "da" },
              { skill_name := "b", description := "db" }] }

/-- Witness for C2: a two-step plan against an empty registry. -/
theorem C2_missing_skill_step_witness :
    ∃ evs r, Executor.execute_plan C2reg C2plan none = (evs, Except.ok r) ∧
      r.step_results.length = 2 ∧
      r.step_results[0]? = some
        ⟨0, "a", ⟨none, [("error", "Skill not found: a")]⟩, 0⟩ := by
  obtain ⟨evs, r, heq, hlen, hidx⟩ := C2_missing_skill_step C2reg C2plan none
    (by intro s _ sk hsk; simp [C2reg, SkillRegistry.get, List.lookup] at hsk)
  refine ⟨evs, r, heq, by simpa [C2plan] using hlen, ?_⟩
  have h0 := hidx 0 (by simp [C2plan])
    (by simp [C2reg, C2plan, SkillRegistry.get, List.lookup])
  simpa [C2plan] using h0

def boomSkill : SkillInfo :=
  { name := "boom", description := "always raises", parameters := ⟨[], []⟩,
    execute := fun _ => Except.error "boom", duration := fun _ => 0 }

def C3reg : SkillRegistry := ⟨[("boom", boomSkill)]⟩

def C3plan : Plan :=
  { reasoning := "r", steps := [{ skill_name := "boom", description := "go" }] }

/-- C3 counterexample: a registered skill whose `execute` raises makes
`execute_plan` propagate the exception — the run yields `Except.error "boom"`,
not an `ExecutionResult` recording the failure in `metadata["error"]`, refuting
the claim that a raising skill is surfaced as data by the executor. -/
theorem C3_counterexample :
    (Executor.execute_plan C3reg C3plan none).2 = Except.error "boom" := by
  simp [Executor.execute_plan, execLoop, C3reg, C3plan, SkillRegistry.get,
    List.lookup, boomSkill, Except.map]

/-- C3 (amended): `Executor.execute_plan` has no handler around
`skill.execute`.  A failure the skill returns *as data* — an `Except.ok`
result carrying `metadata["error"]` — is recorded in the step's `StepResult`
without raising, but if `skill.execute` raises, the exception propagates to
the caller of `execute_plan` instead of being recorded. -/
theorem C3_skill_failure_handling (reg : SkillRegistry) (name desc reasoning : String)
    (params : List (String × Value)) (dep : List Nat) (stc : List String)
    (est : ℚ) (eta : Option ℚ) (sk : SkillInfo)
    (hget : reg.get name = some sk) :
    (∀ e, sk.execute params = Except.error e →
      (Executor.execute_plan reg ⟨reasoning, [⟨name, desc, params, dep⟩], stc, est⟩
        eta).2 = Except.error e) ∧
    (∀ res, sk.execute params = Except.ok res →
      (Executor.execute_plan reg ⟨reasoning, [⟨name, desc, params, dep⟩], stc, est⟩
        eta).2 = Except.ok ⟨[⟨0, name, res, sk.duration params⟩], sk.duration params⟩) := by
  constructor
  · intro e he
    simp [Executor.execute_plan, execLoop, hget, he, Except.map]
  · intro res hres
    simp [Executor.execute_plan, execLoop, hget, hres, Except.map]

def okSkill : SkillInfo :=
  { name := "ok", description := "succeeds", parameters := ⟨[], []⟩,
    execute := fun _ => Except.ok ⟨some (Value.vStr "done"), []⟩,
    duration := fun _ => 5 }

def C3regOk : SkillRegistry := ⟨[("ok", okSkill)]⟩

def C3planOk : Plan :=
  { reasoning := "r", steps := [{ skill_name := "ok", description := "go" }] }

/-- Witness for the amended C3, covering both branches at concrete skills. -/
theorem C3_skill_failure_handling_witness :
    (Executor.execute_plan C3reg C3plan none).2 = Except.error "boom" ∧
    (Executor.execute_plan C3regOk C3planOk none).2
      = Except.ok ⟨[⟨0, "ok", ⟨some (Value.vStr "done"), []⟩, 5⟩], 5⟩ := by
  constructor
  · exact (C3_skill_failure_handling C3reg "boom" "go" "r" [] [] [] 0 none boomSkill
      (by simp [C3reg, SkillRegistry.get, List.lookup])).1 "boom" rfl
  · exact (C3_skill_failure_handling C3regOk "ok" "go" "r" [] [] [] 0 none okSkill
      (by simp [C3regOk, SkillRegistry.get, List.lookup])).2
      ⟨some (Value.vStr "done"), []⟩ rfl

/-- C8: on a run that returns (cf. C3), `execute_plan` publishes one
`executing` status per step, in order, before running the step; the status for
step `i` (0-based) carries the message `"Step i+1/N: <description>"` and, for
`i = 0`, the caller-supplied `eta_seconds` (absent when none is supplied), and
for `i > 0` the ETA `(elapsed so far / i) * (N - i)`. -/
theorem C8_eta_schedule (reg : SkillRegistry) (plan : Plan) (eta : Option ℚ)
    (evs : List AntonEvent) (r : ExecutionResult)
    (h : Executor.execute_plan reg plan eta = (evs, Except.ok r)) :
    evs.length = plan.steps.length ∧
    ∀ i, (hi : i < plan.steps.length) →
      evs[i]? = some (AntonEvent.statusUpdate Phase.executing
        ("Step " ++ toString (i + 1) ++ "/" ++ toString plan.steps.length ++ ": "
          ++ plan.steps[i].description)
        (if i = 0 then eta
         else some (durSum reg (plan.steps.take i) / (i : ℚ)
           * ((plan.steps.length - i : Nat) : ℚ)))) := by
  simp only [Executor.execute_plan] at h
  cases hout : (execLoop reg plan.steps.length eta plan.steps 0 0).2 with
  | error e =>
    rw [hout] at h
    obtain ⟨h1, h2⟩ := Prod.mk.injEq .. ▸ h
    simp [Except.map] at h2
  | ok p =>
    rw [hout] at h
    obtain ⟨h1, h2⟩ := Prod.mk.injEq .. ▸ h
    have hchar := execLoop_of_ok reg plan.steps.length eta plan.steps 0 0
      (execLoop reg plan.steps.length eta plan.steps 0 0).1 p (by rw [← hout])
    have hevs : evs = specEvents reg plan.steps.length eta plan.steps 0 0 := by
      rw [← h1, hchar.1]
    constructor
    · rw [hevs]; exact specEvents_length ..
    · intro i hi
      rw [hevs, specEvents_get reg plan.steps.length eta plan.steps 0 i 0 hi]
      simp [stepMsg, stepEta]

def C8skill : SkillInfo :=
  { name := "w", description := "work", parameters := ⟨[], []⟩,
    execute := fun _ => Except.ok ⟨some (Value.vStr "done"), []⟩,
    duration := fun _ => 2 }

def C8reg : SkillRegistry := ⟨[("w", C8skill)]⟩

def C8plan : Plan :=
  { reasoning := "r",
    steps := [{ skill_name := "w", description := "d1" },
              { skill_name := "w", description := "d2" },
              { skill_name := "w", description := "d3" }] }

/-- Witness for C8: three 2-second steps with an initial estimate of 10 —
the statuses carry ETAs 10, (2/1)*2 = 4 and (4/2)*1 = 2. -/
theorem C8_eta_schedule_witness :
    ∃ evs r, Executor.execute_plan C8reg C8plan (some 10) = (evs, Except.ok r) ∧
      evs[0]? = some (AntonEvent.statusUpdate Phase.executing
        (stepMsg 0 3 "d1") (some 10)) ∧
      evs[1]? = some (AntonEvent.statusUpdate Phase.executing
        (stepMsg 1 3 "d2") (some 4)) ∧
      evs[2]? = some (AntonEvent.statusUpdate Phase.executing
        (stepMsg 2 3 "d3") (some 2)) := by
  have hs : StepsSucceed C8reg C8plan.steps := by
    intro s hsm sk hsk
    fin_cases hsm <;>
      · simp [C8reg, SkillRegistry.get, List.lookup] at hsk
        subst hsk
        exact ⟨⟨some (Value.vStr "done"), []⟩, rfl⟩
  have hrun : Executor.execute_plan C8reg C8plan (some 10)
      = (specEvents C8reg 3 (some 10) C8plan.steps 0 0,
         Except.ok ⟨specResults C8reg C8plan.steps 0, 0 + durSum C8reg C8plan.steps⟩) := by
    unfold Executor.execute_plan
    rw [execLoop_ok _ _ _ _ _ _ hs]
    rfl
  obtain ⟨hlen, hidx⟩ := C8_eta_schedule C8reg C8plan (some 10) _ _ hrun
  refine ⟨_, _, hrun, ?_, ?_, ?_⟩
  · have h0 := hidx 0 (by simp [C8plan])
    simpa [C8plan, stepMsg] using h0
  · have h1 := hidx 1 (by simp [C8plan])
    rw [h1]
    simp [C8plan, stepMsg, durSum, stepDuration, C8reg, C8skill, SkillRegistry.get,
      List.lookup]
    norm_num
  · have h2 := hidx 2 (by simp [C8plan])
    rw [h2]
    simp [C8plan, stepMsg, durSum, stepDuration, C8reg, C8skill, SkillRegistry.get,
      List.lookup]

/-! ## Skill tester (`anton/skill/tester.py`) -/

/-- `SkillTester._find_skill` — first skill whose name equals the requested one. -/
def findSkill (skills : List SkillInfo) (name : String) : Option SkillInfo :=
  skills.find? (fun s => s.name == name)

/-- Python's `repr` of a list of strings, as interpolated by
`f"..., found: {found}"`. -/
def pyListRepr (names : List String) : String :=
  "[" ++ String.intercalate ", " (names.map (fun n => "'" ++ n ++ "'")) ++ "]"

/-- `SkillTester.test_skill`.  `load_skill_module(path)` either raises or
returns the skill-decorated functions found in the candidate file; that
outcome, a function of the file, is passed in as `loadOutcome`.  Stages are
checked in the order import → signature → execution, stopping at the first
failure; the execution stage runs only when the spec carries `test_inputs`. -/
def SkillTester.test_skill (loadOutcome : Except String (List SkillInfo))
    (spec : SkillSpec) : TestResult :=
  match loadOutcome with
  | Except.error exc => ⟨false, "import", exc⟩
  | Except.ok skills =>
    if skills.isEmpty then
      ⟨false, "import", "No @skill-decorated function found in module"⟩
    else
      match findSkill skills spec.name with
      | none =>
        ⟨false, "signature",
         "Expected skill named '" ++ spec.name ++ "', found: "
           ++ pyListRepr (skills.map (fun s => s.name))⟩
      | some sk =>
        match spec.parameters.find?
            (fun p => (sk.parameters.properties.lookup p.1).isNone) with
        | some p =>
          ⟨false, "signature", "Missing parameter '" ++ p.1 ++ "' in skill signature"⟩
        | none =>
          if spec.test_inputs.isEmpty then ⟨true, "signature", ""⟩
          else
            match sk.execute (spec.test_inputs.map (fun q => (q.1, Value.vStr q.2))) with
            | Except.error exc => ⟨false, "execution", exc⟩
            | Except.ok res =>
              match res.metadata.lookup "error" with
              | some err =>
                if err != "" then ⟨false, "execution", "Skill returned error: " ++ err⟩
                else ⟨true, "execution", ""⟩
              | none => ⟨true, "execution", ""⟩

/-- C5: the tester checks import → signature → execution in order and stops at
the first failure: a load that raises, or a module with no skill-decorated
function, fails at `"import"`; a module lacking a skill of the requested name,
or missing a spec parameter in its schema, fails at `"signature"` and never
reaches execution; the execution stage runs only when the spec carries
`test_inputs`, and without `test_inputs` a signature pass yields
`passed = True`. -/
theorem C5_tester_stage_order :
    (∀ exc spec, SkillTester.test_skill (Except.error exc) spec
        = ⟨false, "import", exc⟩) ∧
    (∀ spec, SkillTester.test_skill (Except.ok []) spec
        = ⟨false, "import", "No @skill-decorated function found in module"⟩) ∧
    (∀ skills spec, skills ≠ [] → findSkill skills spec.name = none →
      SkillTester.test_skill (Except.ok skills) spec
        = ⟨false, "signature",
           "Expected skill named '" ++ spec.name ++ "', found: "
             ++ pyListRepr (skills.map (fun s => s.name))⟩) ∧
    (∀ skills spec sk p, findSkill skills spec.name = some sk →
      spec.parameters.find?
          (fun q => (sk.parameters.properties.lookup q.1).isNone) = some p →
      SkillTester.test_skill (Except.ok skills) spec
        = ⟨false, "signature",
           "Missing parameter '" ++ p.1 ++ "' in skill signature"⟩) ∧
    (∀ skills spec sk, findSkill skills spec.name = some sk →
      spec.parameters.find?
          (fun q => (sk.parameters.properties.lookup q.1).isNone) = none →
      spec.test_inputs = [] →
      SkillTester.test_skill (Except.ok skills) spec = ⟨true, "signature", ""⟩) ∧
    (∀ loadOutcome spec,
      (SkillTester.test_skill loadOutcome spec).stage = "execution" →
      spec.test_inputs ≠ []) := by
  refine ⟨fun exc spec => rfl, fun spec => rfl, ?_, ?_, ?_, ?_⟩
  · intro skills spec hne hfind
    simp [SkillTester.test_skill, List.isEmpty_iff, hne, hfind]
  · intro skills spec sk p hfind hmiss
    have hne : skills ≠ [] := by
      intro hnil
      rw [hnil] at hfind
      simp [findSkill] at hfind
    simp [SkillTester.test_skill, List.isEmpty_iff, hne, hfind, hmiss]
  · intro skills spec sk hfind hok hti
    have hne : skills ≠ [] := by
      intro hnil
      rw [hnil] at hfind
      simp [findSkill] at hfind
    simp [SkillTester.test_skill, List.isEmpty_iff, hne, hfind, hok, hti]
  · intro lo spec hst hti
    cases lo with
    | error exc => simp [SkillTester.test_skill] at hst
    | ok skills =>
      by_cases hemp : skills.isEmpty
      · simp [SkillTester.test_skill, hemp] at hst
      · cases hfind : findSkill skills spec.name with
        | none => simp [SkillTester.test_skill, hemp, hfind] at hst
        | some sk =>
          cases hmiss : spec.parameters.find?
              (fun q => (sk.parameters.properties.lookup q.1).isNone) with
          | some p => simp [SkillTester.test_skill, hemp, hfind, hmiss] at hst
          | none => simp [SkillTester.test_skill, hemp, hfind, hmiss, hti] at hst

def C5skill : SkillInfo :=
  { name := "greet", description := "say hello",
    parameters := ⟨[("who", "string")], ["who"]⟩,
    execute := fun _ => Except.ok ⟨some (Value.vStr "hi"), []⟩,
    duration := fun _ => 0 }

def C5specOk : SkillSpec :=
  { name := "greet", description := "d", parameters := [("who", "str")] }

def C5specWrongName : SkillSpec := { name := "other", description := "d" }

def C5specMissing : SkillSpec :=
  { name := "greet", description := "d", parameters := [("target", "str")] }

def C5specExec : SkillSpec :=
  { name := "greet", description := "d", parameters := [("who", "str")],
    test_inputs := [("who", "world")] }

/-- Witness for C5 at concrete candidate modules and specs. -/
theorem C5_tester_stage_order_witness :
    SkillTester.test_skill (Except.error "invalid syntax") C5specOk
      = ⟨false, "import", "invalid syntax"⟩ ∧
    SkillTester.test_skill (Except.ok []) C5specOk
      = ⟨false, "import", "No @skill-decorated function found in module"⟩ ∧
    SkillTester.test_skill (Except.ok [C5skill]) C5specWrongName
      = ⟨false, "signature", "Expected skill named 'other', found: ['greet']"⟩ ∧
    SkillTester.test_skill (Except.ok [C5skill]) C5specMissing
      = ⟨false, "signature", "Missing parameter 'target' in skill signature"⟩ ∧
    SkillTester.test_skill (Except.ok [C5skill]) C5specOk = ⟨true, "signature", ""⟩ ∧
    C5specExec.test_inputs ≠ [] := by
  obtain ⟨h1, h2, h3, h4, h5, h6⟩ := C5_tester_stage_order
  refine ⟨h1 "invalid syntax" C5specOk, h2 C5specOk, ?_, ?_, ?_, ?_⟩
  · have := h3 [C5skill] C5specWrongName (by simp)
      (by simp [findSkill, C5skill, C5specWrongName])
    simpa [C5specWrongName, C5skill, pyListRepr] using this
  · exact h4 [C5skill] C5specMissing C5skill ("target", "str")
      (by simp [findSkill, C5skill, C5specMissing])
      (by simp [C5specMissing, C5skill, List.lookup])
  · exact h5 [C5skill] C5specOk C5skill
      (by simp [findSkill, C5skill, C5specOk])
      (by simp [C5specOk, C5skill, List.lookup])
      (by simp [C5specOk])
  · exact h6 (Except.ok [C5skill]) C5specExec
      (by simp [SkillTester.test_skill, findSkill, C5skill, C5specExec, List.lookup])

/-! ## Skill builder (`anton/skill/builder.py`) -/

/-- Python's `\s` character class (the ASCII whitespace the fences use). -/
def pyIsSpace (c : Char) : Bool :=
  c == ' ' || c == '\t' || c == '\n' || c == '\r'
    || c == Char.ofNat 11 || c == Char.ofNat 12

/-- Python `str.strip()` on a character list. -/
def pyStripChars (cs : List Char) : List Char :=
  ((cs.dropWhile pyIsSpace).reverse.dropWhile pyIsSpace).reverse

/-- Python `str.strip()`. -/
def pyStrip (s : String) : String :=
  String.mk (pyStripChars s.toList)

/-- Does `lit` occur at the head of `cs`? -/
def litAt : List Char → List Char → Bool
  | [], _ => true
  | _ :: _, [] => false
  | l :: ls, c :: cs => l == c && litAt ls cs

/-- The lazy `(.*?)` group: the shortest prefix of `body` before a closing
fence, `none` when no closing fence follows (making the whole match fail). -/
def lazyUpToFence : List Char → Option (List Char)
  | [] => none
  | c :: cs =>
    if litAt ("```".toList) (c :: cs) then some []
    else (lazyUpToFence cs).map (fun g => c :: g)

/-- One attempted match of `re.search(r"<lit>\s*\n(.*?)```", text, re.DOTALL)`
at the current position: the fence literal, then the greedy `\s*` backtracking
to the last newline of the whitespace run, then the lazy group up to the first
closing fence. -/
def tryFence (lit : List Char) (cs : List Char) : Option (List Char) :=
  if litAt lit cs then
    let q := cs.drop lit.length
    let ws := q.takeWhile pyIsSpace
    if ws.contains '\n' then
      lazyUpToFence ((ws.reverse.takeWhile (fun ch => ch != '\n')).reverse
        ++ q.drop ws.length)
    else none
  else none

/-- `re.search` scanning: the leftmost position where the pattern matches. -/
def searchFence (lit : List Char) : List Char → Option (List Char)
  | [] => none
  | c :: cs =>
    match tryFence lit (c :: cs) with
    | some g => some g
    | none => searchFence lit cs

/-- `_extract_code` — prefer a ```python fence, fall back to a generic fence,
fall back to the raw text; in each case `strip()` the result and append a
newline. -/
def extract_code (text : String) : String :=
  match searchFence ("```python".toList) text.toList with
  | some g => String.mk (pyStripChars g) ++ "\n"
  | none =>
    match searchFence ("```".toList) text.toList with
    | some g => String.mk (pyStripChars g) ++ "\n"
    | none => pyStrip text ++ "\n"

/-- A chat message: (role, content). -/
abbrev Msg := String × String

/-- `MAX_ATTEMPTS` in `anton/skill/builder.py`. -/
def MAX_ATTEMPTS : Nat := 3

/-- Python's `repr` of a `dict[str, str]` as interpolated into an f-string. -/
def pyDictRepr (d : List (String × String)) : String :=
  "\x7b" ++ String.intercalate ", "
    (d.map (fun p => "'" ++ p.1 ++ "': '" ++ p.2 ++ "'")) ++ "\x7d"

/-- `SkillBuilder._build_user_prompt`. -/
def buildUserPrompt (spec : SkillSpec) : String :=
  let lines := ["Create a skill named '" ++ spec.name ++ "'.",
                "Description: " ++ spec.description]
  let lines := if spec.parameters ≠ [] then
      lines ++ ["Parameters: " ++ String.intercalate ", "
        (spec.parameters.map (fun p => p.1 ++ " (" ++ p.2 ++ ")"))]
    else lines
  let lines := if spec.expected_output ≠ "" then
      lines ++ ["Expected output: " ++ spec.expected_output]
    else lines
  let lines := if spec.test_inputs ≠ [] then
      lines ++ ["Test inputs: " ++ pyDictRepr spec.test_inputs]
    else lines
  String.intercalate "\n" lines

/-- The feedback message appended as a user turn after a failed attempt. -/
def retryFeedback (result : TestResult) : String :=
  "The generated skill failed validation at stage '" ++ result.stage ++ "': "
    ++ result.error ++ "\n\nPlease fix the code and try again."

/-- The `skill_building` status published at the top of attempt `attempt`. -/
def attemptStatus (spec : SkillSpec) (attempt : Nat) : AntonEvent :=
  AntonEvent.statusUpdate Phase.skillBuilding
    ("Building skill '" ++ spec.name ++ "' (attempt " ++ toString attempt
      ++ "/" ++ toString MAX_ATTEMPTS ++ ")...") none

/-- What a finished (non-raising) `build` run left behind: its return value,
the final contents of `<user_skills_dir>/<name>/skill.py`, the registry, the
number of LLM code calls made, and the statuses published. -/
structure BuildOutput where
  result : Option SkillInfo
  file : Option String
  registry : SkillRegistry
  calls : Nat
  events : List AntonEvent

/-- The `for attempt in range(1, MAX_ATTEMPTS + 1)` loop of
`SkillBuilder.build`.  `llm` models `self._llm.code(...)` returning the
response content (it may raise); `test` models
`self._tester.test_skill(skill_path, spec)` as a function of the file's
contents (the written candidate determines the outcome); `load` models
`load_skill_module(skill_path)` likewise.  `fuel` is the number of remaining
attempts, `attempt` the 1-based attempt number, `file` the current contents of
the skill file (written before testing, exactly as in the source), and
`calls` the number of LLM calls made so far. -/
def buildLoop (llm : List Msg → Except String String) (test : String → TestResult)
    (load : String → List SkillInfo) (spec : SkillSpec) :
    Nat → Nat → List Msg → Option String → SkillRegistry → List AntonEvent → Nat
      → Except String BuildOutput
  | 0, _, _, file, reg, events, calls =>
    Except.ok
      { result := none, file := file, registry := reg, calls := calls,
        events := events ++ [AntonEvent.statusUpdate Phase.skillBuilding
          ("Failed to build skill '" ++ spec.name ++ "' after "
            ++ toString MAX_ATTEMPTS ++ " attempts") none] }
  | fuel + 1, attempt, messages, _file, reg, events, calls =>
    let events := events ++ [attemptStatus spec attempt]
    match llm messages with
    | Except.error e => Except.error e
    | Except.ok content =>
      let code := extract_code content
      let result := test code
      if result.passed then
        let events := events ++ [AntonEvent.statusUpdate Phase.skillBuilding
          ("Skill '" ++ spec.name ++ "' built successfully") none]
        let skills := load code
        match skills.find? (fun s => s.name == spec.name) with
        | some sk =>
          Except.ok
            { result := some sk, file := some code,
              registry := reg.register sk, calls := calls + 1, events := events }
        | none =>
          match skills with
          | first :: _ =>
            Except.ok
              { result := some first, file := some code,
                registry := reg.register first, calls := calls + 1, events := events }
          | [] =>
            buildLoop llm test load spec fuel (attempt + 1)
              (messages ++ [("assistant", content), ("user", retryFeedback result)])
              (some code) reg events (calls + 1)
      else
        buildLoop llm test load spec fuel (attempt + 1)
          (messages ++ [("assistant", content), ("user", retryFeedback result)])
          (some code) reg events (calls + 1)

/-- `SkillBuilder.build`.  `file0` is the prior contents of
`<user_skills_dir>/<name>/skill.py` (`none` when the file does not exist;
`mkdir` has no observable effect in the model).  The fixed
`BUILDER_PROMPT`-based system prompt influences no claim and is absorbed into
`llm`. -/
def SkillBuilder.build (llm : List Msg → Except String String)
    (test : String → TestResult) (load : String → List SkillInfo)
    (spec : SkillSpec) (reg : SkillRegistry) (file0 : Option String) :
    Except String BuildOutput :=
  buildLoop llm test load spec MAX_ATTEMPTS 1 [("user", buildUserPrompt spec)]
    file0 reg [] 0

theorem buildLoop_failed_step (llm : List Msg → Except String String)
    (test : String → TestResult) (load : String → List SkillInfo)
    (spec : SkillSpec) (fuel attempt : Nat) (messages : List Msg)
    (file : Option String) (reg : SkillRegistry) (events : List AntonEvent)
    (calls : Nat) (content : String)
    (hc : llm messages = Except.ok content)
    (hf : (test (extract_code content)).passed = false) :
    buildLoop llm test load spec (fuel + 1) attempt messages file reg events calls
      = buildLoop llm test load spec fuel (attempt + 1)
          (messages ++ [("assistant", content),
            ("user", retryFeedback (test (extract_code content)))])
          (some (extract_code content)) reg
          (events ++ [attemptStatus spec attempt])
          (calls + 1) := by
  rw [buildLoop, hc]
  simp [hf]

/-- C6: when every generated candidate fails testing (and the LLM itself does
not raise), `build` calls the LLM code-generation entry point exactly 3 times,
returns `None`, and ends by publishing a `skill_building` failure status — it
never makes a fourth attempt. -/
theorem C6_retry_budget (llm : List Msg → Except String String)
    (test : String → TestResult) (load : String → List SkillInfo)
    (spec : SkillSpec) (reg : SkillRegistry) (file0 : Option String)
    (hllm : ∀ msgs, ∃ content, llm msgs = Except.ok content)
    (hfail : ∀ code, (test code).passed = false) :
    ∃ out, SkillBuilder.build llm test load spec reg file0 = Except.ok out ∧
      out.calls = 3 ∧ out.result = none ∧
      out.events.getLast? = some (AntonEvent.statusUpdate Phase.skillBuilding
        ("Failed to build skill '" ++ spec.name ++ "' after 3 attempts") none) := by
  obtain ⟨c1, h1⟩ := hllm [("user", buildUserPrompt spec)]
  obtain ⟨c2, h2⟩ := hllm [("user", buildUserPrompt spec),
    ("assistant", c1), ("user", retryFeedback (test (extract_code c1)))]
  obtain ⟨c3, h3⟩ := hllm [("user", buildUserPrompt spec),
    ("assistant", c1), ("user", retryFeedback (test (extract_code c1))),
    ("assistant", c2), ("user", retryFeedback (test (extract_code c2)))]
  refine ⟨{ result := none, file := some (extract_code c3), registry := reg,
            calls := 3,
            events := [attemptStatus spec 1, attemptStatus spec 2, attemptStatus spec 3,
              AntonEvent.statusUpdate Phase.skillBuilding
                ("Failed to build skill '" ++ spec.name ++ "' after "
                  ++ toString MAX_ATTEMPTS ++ " attempts") none] }, ?_, rfl, rfl, ?_⟩
  · simp [SkillBuilder.build, MAX_ATTEMPTS, buildLoop, h1, h2, h3, hfail, attemptStatus]
  · simp [List.getLast?, String.append_assoc]
    rw [show "' after " ++ (toString MAX_ATTEMPTS ++ " attempts")
      = "' after 3 attempts" from by decide]

def C6llm : List Msg → Except String String := fun _ => Except.ok "still broken"

def C6test : String → TestResult := fun _ => ⟨false, "import", "name error"⟩

def C6load : String → List SkillInfo := fun _ => []

def C6spec : SkillSpec := { name := "parse_logs", description := "d" }

/-- Witness for C6 at a concrete always-failing code generator. -/
theorem C6_retry_budget_witness :
    ∃ out, SkillBuilder.build C6llm C6test C6load C6spec ⟨[]⟩ none = Except.ok out ∧
      out.calls = 3 ∧ out.result = none ∧
      out.events.getLast? = some (AntonEvent.statusUpdate Phase.skillBuilding
        "Failed to build skill 'parse_logs' after 3 attempts" none) := by
  obtain ⟨out, h1, h2, h3, h4⟩ := C6_retry_budget C6llm C6test C6load C6spec ⟨[]⟩ none
    (fun msgs => ⟨"still broken", rfl⟩) (fun code => rfl)
  refine ⟨out, h1, h2, h3, ?_⟩
  rw [h4]
  rw [show ("Failed to build skill '" ++ C6spec.name ++ "' after 3 attempts")
    = "Failed to build skill 'parse_logs' after 3 attempts" from by decide]

def C1priorGood : String := "async def old_working_skill(): ...\n"

def C1llm : List Msg → Except String String := fun _ => Except.ok "BROKEN CODE"

def C1test : String → TestResult := fun _ => ⟨false, "import", "invalid syntax"⟩

def C1load : String → List SkillInfo := fun _ => []

def C1spec : SkillSpec := { name := "fetch_data", description := "d" }

/-- C1 (code bug): `build` writes every candidate to the final
`<user_skills_dir>/<name>/skill.py` *before* testing it
(`skill_path.write_text(code)` precedes `test_skill`), so when every candidate
fails, a pre-existing working file has been overwritten by the last broken
candidate: starting from a good file, a fully failed build returns `None` and
leaves `extract_code("BROKEN CODE")` on disk, not the original contents. -/
theorem C1_failed_build_clobbers_prior_file :
    ∃ out, SkillBuilder.build C1llm C1test C1load C1spec ⟨[]⟩ (some C1priorGood)
        = Except.ok out ∧
      out.result = none ∧
      out.file = some "BROKEN CODE\n" ∧
      out.file ≠ some C1priorGood := by
  refine ⟨{ result := none, file := some "BROKEN CODE\n", registry := ⟨[]⟩, calls := 3,
            events := [
              AntonEvent.statusUpdate Phase.skillBuilding
                "Building skill 'fetch_data' (attempt 1/3)..." none,
              AntonEvent.statusUpdate Phase.skillBuilding
                "Building skill 'fetch_data' (attempt 2/3)..." none,
              AntonEvent.statusUpdate Phase.skillBuilding
                "Building skill 'fetch_data' (attempt 3/3)..." none,
              AntonEvent.statusUpdate Phase.skillBuilding
                "Failed to build skill 'fetch_data' after 3 attempts" none] },
          ?_, rfl, rfl, by decide⟩
  rfl

/-! ## Scratchpad (`anton/scratchpad.py`) -/

/-- A notebook cell: code plus captured outputs. -/
structure Cell where
  code : String
  stdout : String
  stderr : String
  error : Option String
  deriving DecidableEq

/-- The per-scratchpad virtual environment: its temp directory and the
packages pip-installed into it (they live in the filesystem, not the
process). -/
structure Venv where
  dir : String
  packages : List String
  deriving DecidableEq

/-- `Scratchpad` state: name, accumulated cells, the live subprocess (a pid
when running), the boot-script temp file, and the lazily created venv. -/
structure Scratchpad where
  name : String
  cells : List Cell
  proc : Option Nat
  boot_path : Option String
  venv : Option Venv
  deriving DecidableEq

/-- `Scratchpad._ensure_venv` — create the venv only when absent (idempotent);
`freshDir` models the `tempfile.mkdtemp` result used on creation. -/
def Scratchpad.ensure_venv (st : Scratchpad) (freshDir : String) : Scratchpad :=
  match st.venv with
  | some _ => st
  | none => { st with venv := some ⟨freshDir, []⟩ }

/-- `Scratchpad.start` — ensure the venv, write the boot script to a temp
file, spawn the subprocess (`bootFile` and `pid` model the fresh temp file and
process handles). -/
def Scratchpad.start (st : Scratchpad) (freshDir bootFile : String) (pid : Nat) :
    Scratchpad :=
  let st := st.ensure_venv freshDir
  { st with boot_path := some bootFile, proc := some pid }

/-- `Scratchpad._stop_process` — kill the subprocess and delete the boot
script, keeping the venv. -/
def Scratchpad.stop_process (st : Scratchpad) : Scratchpad :=
  { st with proc := none, boot_path := none }

/-- `Scratchpad.reset` — kill the process, clear cells, restart; the venv
(and the packages installed in it) survives. -/
def Scratchpad.reset (st : Scratchpad) (freshDir bootFile : String) (pid : Nat) :
    Scratchpad :=
  let st := st.stop_process
  let st := { st with cells := [] }
  st.start freshDir bootFile pid

/-- `Scratchpad.close` — kill the process and additionally delete the venv. -/
def Scratchpad.close (st : Scratchpad) : Scratchpad :=
  let st := st.stop_process
  { st with venv := none }

/-- `Scratchpad.install_packages` — `pip install` into the scratchpad's own
venv (creating it if needed); a successful install (`ok`) adds the packages to
the venv's filesystem, a failed or timed-out one leaves it unchanged. -/
def Scratchpad.install_packages (st : Scratchpad) (packages : List String)
    (freshDir : String) (ok : Bool) : Scratchpad :=
  if packages = [] then st
  else
    let st := st.ensure_venv freshDir
    if ok then
      { st with venv := st.venv.map (fun v => ⟨v.dir, v.packages ++ packages⟩) }
    else st

/-- C9: `reset` clears the cells and restarts the subprocess while leaving the
virtual-environment directory — and therefore its installed packages —
unchanged, whereas `close` additionally deletes the venv; neither operation
changes the scratchpad's name. -/
theorem C9_reset_preserves_venv (st : Scratchpad) (v : Venv)
    (freshDir bootFile : String) (pid : Nat) (hv : st.venv = some v) :
    (st.reset freshDir bootFile pid).cells = [] ∧
    (st.reset freshDir bootFile pid).proc = some pid ∧
    (st.reset freshDir bootFile pid).venv = some v ∧
    ((st.reset freshDir bootFile pid).venv.map Venv.packages) = some v.packages ∧
    (st.reset freshDir bootFile pid).name = st.name ∧
    st.close.venv = none ∧
    st.close.proc = none ∧
    st.close.name = st.name := by
  simp [Scratchpad.reset, Scratchpad.close, Scratchpad.start,
    Scratchpad.stop_process, Scratchpad.ensure_venv, hv]

/-- Witness for C9: a scratchpad with an installed package. -/
theorem C9_reset_preserves_venv_witness :
    (Scratchpad.reset ⟨"pad", [⟨"x = 1", "", "", none⟩], some 7, some "/tmp/boot",
        some ⟨"/tmp/venv", ["requests"]⟩⟩ "/tmp/venv2" "/tmp/boot2" 8).venv
      = some ⟨"/tmp/venv", ["requests"]⟩ ∧
    (Scratchpad.reset ⟨"pad", [⟨"x = 1", "", "", none⟩], some 7, some "/tmp/boot",
        some ⟨"/tmp/venv", ["requests"]⟩⟩ "/tmp/venv2" "/tmp/boot2" 8).cells = [] ∧
    (Scratchpad.close ⟨"pad", [], some 7, some "/tmp/boot",
        some ⟨"/tmp/venv", ["requests"]⟩⟩).venv = none := by
  have h1 := C9_reset_preserves_venv
    ⟨"pad", [⟨"x = 1", "", "", none⟩], some 7, some "/tmp/boot",
      some ⟨"/tmp/venv", ["requests"]⟩⟩ ⟨"/tmp/venv", ["requests"]⟩
    "/tmp/venv2" "/tmp/boot2" 8 rfl
  have h2 := C9_reset_preserves_venv
    ⟨"pad", [], some 7, some "/tmp/boot", some ⟨"/tmp/venv", ["requests"]⟩⟩
    ⟨"/tmp/venv", ["requests"]⟩ "/tmp/venv2" "/tmp/boot2" 8 rfl
  exact ⟨h1.2.2.1, h1.1, h2.2.2.2.2.2.1⟩

/-! ## Agent (`anton/core/agent.py`) -/

/-- Session-store effects the agent performs (the `SessionStore` interface);
transcript entry contents are abstracted to a tag. -/
inductive SessionAct where
  | started (id : String)
  | appended (id : String) (tag : String)
  | completed (id : String) (summary : String)
  | failedSession (id : String) (error : String)
  deriving DecidableEq

/-- The state threaded through one `Agent.run`: events published on the bus,
session-store actions performed, the session id (once started), and the
estimator history. -/
structure AgentSt where
  events : List AntonEvent
  acts : List SessionAct
  sid : Option String
  est : History
  deriving DecidableEq

def publishSt (st : AgentSt) (ev : AntonEvent) : AgentSt :=
  { st with events := st.events ++ [ev] }

def actSt (st : AgentSt) (a : SessionAct) : AgentSt :=
  { st with acts := st.acts ++ [a] }

/-- The collaborators `Agent` is constructed over, modelled by their
observable outcomes: `memory` / `learnings` / `user_skills_dir` say whether
those optional constructor arguments are configured; the function fields
model the fallible collaborator calls of the phases (an `Except.error e` is a
raised exception with message `e`).  `plannerCall` is indexed by the call
number (0 = first plan, 1 = re-plan).  The builder's own status events
(plain `StatusUpdate`s, cf. `SkillBuilder.build`) are outside this
state model. -/
structure AgentEnv where
  registry : SkillRegistry
  memory : Bool
  learnings : Bool
  user_skills_dir : Bool
  startSession : String → Except String String
  buildCtx : String → Except String String
  plannerCall : Nat → String → String → Except String Plan
  buildCall : SkillSpec → Except String (Option SkillInfo)
  completeSession : String → String → Except String Unit
  extractRaw : Except String Unit

/-- Whitespace-run collapsing for `_slugify` (`re.sub(r"\s+", "_", ...)`),
written with a previous-was-space flag so the recursion is structural. -/
def collapseWsAux : Bool → List Char → List Char
  | _, [] => []
  | prevWs, c :: cs =>
    if pyIsSpace c then
      if prevWs then collapseWsAux true cs
      else '_' :: collapseWsAux true cs
    else c :: collapseWsAux false cs

/-- `_slugify` in `anton/core/agent.py`: lowercase, keep only `[a-z0-9\s]`,
strip, collapse whitespace runs to `_`, keep at most 6 parts. -/
def slugify (text : String) : String :=
  let cs := (text.toList.map Char.toLower).filter
    (fun c => ('a' ≤ c && c ≤ 'z') || ('0' ≤ c && c ≤ '9') || pyIsSpace c)
  let collapsed := collapseWsAux false (pyStripChars cs)
  String.intercalate "_" (((String.mk collapsed).splitOn "_").take 6)

/-- Python's `type(v).__name__` for the modelled values. -/
def typeName : Value → String
  | Value.vStr _ => "str"
  | Value.vInt _ => "int"
  | Value.vNum _ => "float"
  | Value.vBool _ => "bool"

/-- `Agent._extract_spec`. -/
def extractSpec (step : PlanStep) : SkillSpec :=
  { name := slugify step.description,
    description := step.description,
    parameters := step.parameters.map (fun p => (p.1, typeName p.2)) }

/-- `Agent._needs_skill_building`. -/
def needsSkillBuilding (plan : Plan) : Bool :=
  !plan.skills_to_create.isEmpty || plan.steps.any (fun s => s.skill_name == "unknown")

/-- `Agent._get_eta` — prefer the estimator's plan estimate, fall back to the
LLM's own positive estimate, else no ETA. -/
def Agent.getEta (est : History) (plan : Plan) : Option ℚ :=
  match TimeEstimator.estimate_plan est (plan.steps.map (fun s => s.skill_name)) with
  | some e => some e
  | none =>
    if 0 < plan.estimated_time_seconds then some plan.estimated_time_seconds else none

/-- Lines 136–139 of `agent.py`: after execution, record into the estimator
only the step durations that are strictly greater than zero. -/
def recordDurations (h : History) (srs : List StepResult) : History :=
  srs.foldl
    (fun h sr =>
      if 0 < sr.duration_seconds then
        TimeEstimator.record h sr.skill_name sr.duration_seconds
      else h)
    h

/-- `str(x)` for the modelled values. -/
def pyStr : Value → String
  | Value.vStr s => s
  | Value.vInt n => toString n
  | Value.vNum q => toString q
  | Value.vBool b => if b then "True" else "False"

/-- Python truthiness for the modelled values. -/
def valTruthy : Value → Bool
  | Value.vStr s => s != ""
  | Value.vInt n => n != 0
  | Value.vNum q => q != 0
  | Value.vBool b => b

/-- One line of `Agent._build_summary` for a successful step: the output
(`str(output or "")`) truncated to 200 characters with an ellipsis marker. -/
def summaryPreviewLine (sr : StepResult) : String :=
  let preview := match sr.result.output with
    | none => ""
    | some v => if valTruthy v then pyStr v else ""
  let preview :=
    if 200 < preview.length then String.mk (preview.toList.take 200) ++ "..."
    else preview
  "  [" ++ toString (sr.step_index + 1) ++ "] " ++ sr.skill_name ++ ": " ++ preview

/-- One line of `Agent._build_summary`. -/
def summaryLine (sr : StepResult) : String :=
  match sr.result.metadata.lookup "error" with
  | some e =>
    if e != "" then
      "  [" ++ toString (sr.step_index + 1) ++ "] " ++ sr.skill_name ++ ": ERROR — " ++ e
    else summaryPreviewLine sr
  | none => summaryPreviewLine sr

/-- `Agent._build_summary`.  (The `f"{total:.1f}"` float formatting is
rendered via `toString` on the exact rational; no claim depends on the
digits.) -/
def buildSummary (plan : Plan) (er : ExecutionResult) : String :=
  String.intercalate "\n"
    (["Task completed in " ++ toString er.total_duration_seconds ++ "s",
      "Plan: " ++ plan.reasoning, ""]
      ++ er.step_results.map summaryLine)

/-- Session start (step 2 of `Agent.run`). -/
def phaseSession (env : AgentEnv) (task : String) (st : AgentSt) :
    Except (AgentSt × String) AgentSt :=
  if env.memory then
    match env.startSession task with
    | Except.error e => Except.error (st, e)
    | Except.ok id => Except.ok (actSt { st with sid := some id } (SessionAct.started id))
  else Except.ok st

/-- Phase 0: memory recall — publish the status, then build the context. -/
def phaseMemory (env : AgentEnv) (task : String) (st : AgentSt) :
    Except (AgentSt × String) (AgentSt × String) :=
  if env.memory && env.learnings then
    let st := publishSt st (AntonEvent.statusUpdate Phase.memoryRecall
      "Loading memory context..." none)
    match env.buildCtx task with
    | Except.error e => Except.error (st, e)
    | Except.ok ctx => Except.ok (st, ctx)
  else Except.ok (st, "")

/-- Transcript logging: `self._memory.append(...)`, guarded by
`self._memory is not None and session_id is not None`. -/
def logAct (env : AgentEnv) (st : AgentSt) (tag : String) : AgentSt :=
  if env.memory then
    match st.sid with
    | some id => actSt st (SessionAct.appended id tag)
    | none => st
  else st

/-- First loop of `Agent._build_missing_skills`: build from the
`skills_to_create` descriptions, deduplicated by slugified name (the name is
added to `seen` before the build call, as in the source). -/
def buildFromDescs (env : AgentEnv) :
    List String → List String → AgentSt
      → Except (AgentSt × String) (List String × AgentSt)
  | [], seen, st => Except.ok (seen, st)
  | desc :: rest, seen, st =>
    let name := slugify desc
    if name ∈ seen then buildFromDescs env rest seen st
    else
      match env.buildCall { name := name, description := desc } with
      | Except.error e => Except.error (st, e)
      | Except.ok _ => buildFromDescs env rest (seen ++ [name]) (logAct env st "skill_built")

/-- Second loop of `Agent._build_missing_skills`: build from the `"unknown"`
steps (which may overlap with `skills_to_create`). -/
def buildFromSteps (env : AgentEnv) :
    List PlanStep → List String → AgentSt
      → Except (AgentSt × String) (List String × AgentSt)
  | [], seen, st => Except.ok (seen, st)
  | step :: rest, seen, st =>
    let spec := extractSpec step
    if spec.name ∈ seen then buildFromSteps env rest seen st
    else
      match env.buildCall spec with
      | Except.error e => Except.error (st, e)
      | Except.ok _ =>
        buildFromSteps env rest (seen ++ [spec.name]) (logAct env st "skill_built")

/-- Phase 2.5: build missing skills, then re-plan from scratch. -/
def phaseBuild (env : AgentEnv) (task ctx : String) (st : AgentSt) (plan : Plan) :
    Except (AgentSt × String) (AgentSt × Plan) :=
  if needsSkillBuilding plan && env.user_skills_dir then
    match buildFromDescs env plan.skills_to_create [] st with
    | Except.error e => Except.error e
    | Except.ok q =>
      match buildFromSteps env
          (plan.steps.filter (fun s => s.skill_name == "unknown")) q.1 q.2 with
      | Except.error e => Except.error e
      | Except.ok q2 =>
        let st := publishSt q2.2 (AntonEvent.statusUpdate Phase.planning
          "Re-planning with newly built skills..." none)
        match env.plannerCall 1 task ctx with
        | Except.error e => Except.error (st, e)
        | Except.ok plan2 => Except.ok (st, plan2)
  else Except.ok (st, plan)

/-- Phase 3: execution through the executor model (no ETA is passed, as in
the source).  The executor's statuses join the event trace; a propagating
skill exception aborts the body. -/
def phaseExec (env : AgentEnv) (st : AgentSt) (plan : Plan) :
    Except (AgentSt × String) (AgentSt × ExecutionResult) :=
  let r := Executor.execute_plan env.registry plan none
  let st := { st with events := st.events ++ r.1 }
  match r.2 with
  | Except.error e => Except.error (st, e)
  | Except.ok er => Except.ok (st, er)

/-- Step 11: `complete_session`. -/
def phaseComplete (env : AgentEnv) (st : AgentSt) (summary : String) :
    Except (AgentSt × String) AgentSt :=
  if env.memory then
    match st.sid with
    | some id =>
      match env.completeSession id summary with
      | Except.error e => Except.error (st, e)
      | Except.ok _ => Except.ok (actSt st (SessionAct.completed id summary))
    | none => Except.ok st
  else Except.ok st

/-- `Agent._extract_learnings` — best-effort: every failure mode inside is
swallowed (`try ... except Exception: pass`), so neither outcome changes the
modelled state (recording into the learning store is outside the modelled
observables). -/
def phaseLearn (env : AgentEnv) (st : AgentSt) : AgentSt :=
  if env.learnings then
    match env.extractRaw with
    | Except.ok _ => st
    | Except.error _ => st
  else st

/-- The `try` body of `Agent.run` (steps 2–12), in source order. -/
def Agent.runBody (env : AgentEnv) (est0 : History) (task : String) :
    Except (AgentSt × String) AgentSt :=
  match phaseSession env task ⟨[], [], none, est0⟩ with
  | Except.error e => Except.error e
  | Except.ok st =>
    match phaseMemory env task st with
    | Except.error e => Except.error e
    | Except.ok q =>
      let st := publishSt q.1 (AntonEvent.statusUpdate Phase.skillDiscovery
        "Inspecting available skills..." none)
      let st := publishSt st (AntonEvent.statusUpdate Phase.planning
        "Analyzing task and creating plan..." none)
      match env.plannerCall 0 task q.2 with
      | Except.error e => Except.error (st, e)
      | Except.ok plan =>
        let st := logAct env st "plan"
        let st := publishSt st (AntonEvent.statusUpdate Phase.planning
          ("Plan ready — " ++ toString plan.steps.length ++ " step(s)")
          (Agent.getEta st.est plan))
        match phaseBuild env task q.2 st plan with
        | Except.error e => Except.error e
        | Except.ok r =>
          match phaseExec env r.1 r.2 with
          | Except.error e => Except.error e
          | Except.ok s =>
            let st := s.2.step_results.foldl (fun st _ => logAct env st "step") s.1
            let st := { st with est := recordDurations st.est s.2.step_results }
            let summary := buildSummary r.2 s.2
            match phaseComplete env st summary with
            | Except.error e => Except.error e
            | Except.ok st =>
              let st := phaseLearn env st
              Except.ok (publishSt st (AntonEvent.taskComplete summary))

/-- What one `Agent.run` left behind.  `relayCancelled` / `unsubscribed`
record the `finally` block's cleanup. -/
structure RunOutput where
  events : List AntonEvent
  acts : List SessionAct
  est : History
  relayCancelled : Bool
  unsubscribed : Bool
  deriving DecidableEq

/-- `Agent.run`: the try body, the single top-level `except` (mark the
session failed when one was started, publish `TaskFailed(str(exc))`), and
the `finally` cleanup.  The function is total: no exception reaches the
caller of `run`. -/
def Agent.run (env : AgentEnv) (est0 : History) (task : String) : RunOutput :=
  match Agent.runBody env est0 task with
  | Except.ok st => ⟨st.events, st.acts, st.est, true, true⟩
  | Except.error (st, e) =>
    let st := if env.memory then
        match st.sid with
        | some id => actSt st (SessionAct.failedSession id e)
        | none => st
      else st
    let st := publishSt st (AntonEvent.taskFailed e)
    ⟨st.events, st.acts, st.est, true, true⟩

def isTaskFailed : AntonEvent → Bool
  | AntonEvent.taskFailed _ => true
  | _ => false

def isTaskComplete : AntonEvent → Bool
  | AntonEvent.taskComplete _ => true
  | _ => false

def isFailedAct : SessionAct → Bool
  | SessionAct.failedSession _ _ => true
  | _ => false

def countTaskFailed (evs : List AntonEvent) : Nat := evs.countP isTaskFailed

def countTaskComplete (evs : List AntonEvent) : Nat := evs.countP isTaskComplete

def countFailedActs (acts : List SessionAct) : Nat := acts.countP isFailedAct

/-- Invariant of every state the try body of `Agent.run` can raise from: no
terminal event has been published, no session has been marked failed, and a
session id exists only when a session store is configured. -/
def BodyInv (env : AgentEnv) (st : AgentSt) : Prop :=
  st.events.countP isTaskFailed = 0 ∧
  st.events.countP isTaskComplete = 0 ∧
  st.acts.countP isFailedAct = 0 ∧
  (env.memory = false → st.sid = none)

theorem bodyInv_publish (env : AgentEnv) (st : AgentSt) (ev : AntonEvent)
    (hf : isTaskFailed ev = false) (hc : isTaskComplete ev = false)
    (h : BodyInv env st) : BodyInv env (publishSt st ev) := by
  obtain ⟨h1, h2, h3, h4⟩ := h
  refine ⟨?_, ?_, h3, h4⟩ <;>
    simp [publishSt, List.countP_append, List.countP_cons, h1, h2, hf, hc]

theorem bodyInv_act (env : AgentEnv) (st : AgentSt) (a : SessionAct)
    (ha : isFailedAct a = false) (h : BodyInv env st) : BodyInv env (actSt st a) := by
  obtain ⟨h1, h2, h3, h4⟩ := h
  refine ⟨h1, h2, ?_, h4⟩
  simp [actSt, List.countP_append, List.countP_cons, h3, ha]

theorem bodyInv_logAct (env : AgentEnv) (st : AgentSt) (tag : String)
    (h : BodyInv env st) : BodyInv env (logAct env st tag) := by
  unfold logAct
  by_cases hm : env.memory = true
  · simp only [hm, if_true]
    cases hs : st.sid with
    | none => exact h
    | some id => exact bodyInv_act env st _ rfl h
  · simp only [hm, if_false, Bool.false_eq_true]
    exact h

theorem bodyInv_setEst (env : AgentEnv) (st : AgentSt) (x : History)
    (h : BodyInv env st) : BodyInv env { st with est := x } := h

theorem phaseSession_inv (env : AgentEnv) (task : String) (st : AgentSt)
    (h : BodyInv env st) :
    (∀ st' e, phaseSession env task st = Except.error (st', e) → BodyInv env st') ∧
    (∀ st', phaseSession env task st = Except.ok st' → BodyInv env st') := by
  unfold phaseSession
  by_cases hm : env.memory = true
  · simp only [hm, if_true]
    cases hss : env.startSession task with
    | error e =>
      constructor
      · intro st' e' he
        simp at he
        rw [← he.1]
        exact h
      · intro st' he
        simp at he
    | ok id =>
      constructor
      · intro st' e' he
        simp at he
      · intro st' he
        simp at he
        rw [← he]
        refine bodyInv_act env _ _ rfl ?_
        exact ⟨h.1, h.2.1, h.2.2.1, fun hmf => absurd hm (by simp [hmf])⟩
  · simp only [hm, if_false, Bool.false_eq_true]
    constructor
    · intro st' e' he
      simp at he
    · intro st' he
      simp at he
      rw [← he]
      exact h

theorem phaseMemory_inv (env : AgentEnv) (task : String) (st : AgentSt)
    (h : BodyInv env st) :
    (∀ st' e, phaseMemory env task st = Except.error (st', e) → BodyInv env st') ∧
    (∀ st' ctx, phaseMemory env task st = Except.ok (st', ctx) → BodyInv env st') := by
  unfold phaseMemory
  by_cases hm : (env.memory && env.learnings) = true
  · simp only [hm, if_true]
    have hpub := bodyInv_publish env st
      (AntonEvent.statusUpdate Phase.memoryRecall "Loading memory context..." none)
      rfl rfl h
    cases hbc : env.buildCtx task with
    | error e =>
      constructor
      · intro st' e' he
        simp at he
        rw [← he.1]
        exact hpub
      · intro st' ctx he
        simp at he
    | ok ctx =>
      constructor
      · intro st' e' he
        simp at he
      · intro st' ctx' he
        simp at he
        rw [← he.1]
        exact hpub
  · simp only [hm, if_false, Bool.false_eq_true]
    constructor
    · intro st' e' he
      simp at he
    · intro st' ctx he
      simp at he
      rw [← he.1]
      exact h

theorem buildFromDescs_inv (env : AgentEnv) (descs : List String) :
    ∀ seen st, BodyInv env st →
    (∀ st' e, buildFromDescs env descs seen st = Except.error (st', e) → BodyInv env st') ∧
    (∀ seen' st', buildFromDescs env descs seen st = Except.ok (seen', st') → BodyInv env st') := by
  induction descs with
  | nil =>
    intro seen st h
    constructor
    · intro st' e he
      simp [buildFromDescs] at he
    · intro seen' st' he
      simp [buildFromDescs] at he
      rw [← he.2]
      exact h
  | cons desc rest ih =>
    intro seen st h
    rw [buildFromDescs]
    by_cases hseen : slugify desc ∈ seen
    · simp only [hseen, if_true]
      exact ih seen st h
    · simp only [hseen, if_false]
      cases hbc : env.buildCall { name := slugify desc, description := desc } with
      | error e =>
        constructor
        · intro st' e' he
          simp at he
          rw [← he.1]
          exact h
        · intro seen' st' he
          simp at he
      | ok r =>
        constructor
        · intro st' e' he
          exact (ih _ _ (bodyInv_logAct env st _ h)).1 st' e' he
        · intro seen' st' he
          exact (ih _ _ (bodyInv_logAct env st _ h)).2 seen' st' he

theorem buildFromSteps_inv (env : AgentEnv) (steps : List PlanStep) :
    ∀ seen st, BodyInv env st →
    (∀ st' e, buildFromSteps env steps seen st = Except.error (st', e) → BodyInv env st') ∧
    (∀ seen' st', buildFromSteps env steps seen st = Except.ok (seen', st') → BodyInv env st') := by
  induction steps with
  | nil =>
    intro seen st h
    constructor
    · intro st' e he
      simp [buildFromSteps] at he
    · intro seen' st' he
      simp [buildFromSteps] at he
      rw [← he.2]
      exact h
  | cons step rest ih =>
    intro seen st h
    rw [buildFromSteps]
    by_cases hseen : (extractSpec step).name ∈ seen
    · simp only [hseen, if_true]
      exact ih seen st h
    · simp only [hseen, if_false]
      cases hbc : env.buildCall (extractSpec step) with
      | error e =>
        constructor
        · intro st' e' he
          simp at he
          rw [← he.1]
          exact h
        · intro seen' st' he
          simp at he
      | ok r =>
        constructor
        · intro st' e' he
          exact (ih _ _ (bodyInv_logAct env st _ h)).1 st' e' he
        · intro seen' st' he
          exact (ih _ _ (bodyInv_logAct env st _ h)).2 seen' st' he

theorem phaseBuild_inv (env : AgentEnv) (task ctx : String) (st : AgentSt)
    (plan : Plan) (h : BodyInv env st) :
    (∀ st' e, phaseBuild env task ctx st plan = Except.error (st', e) → BodyInv env st') ∧
    (∀ st' plan', phaseBuild env task ctx st plan = Except.ok (st', plan') → BodyInv env st') := by
  constructor
  · intro st' e' he
    unfold phaseBuild at he
    split at he
    · split at he
      · rename_i p heq1
        injection he with he
        have hp := (buildFromDescs_inv env _ [] st h).1 p.1 p.2 (by rw [heq1])
        rw [he] at hp
        exact hp
      · rename_i q heq1
        have hq := (buildFromDescs_inv env _ [] st h).2 q.1 q.2 (by rw [heq1])
        split at he
        · rename_i p heq2
          injection he with he
          have hp := (buildFromSteps_inv env _ q.1 q.2 hq).1 p.1 p.2 (by rw [heq2])
          rw [he] at hp
          exact hp
        · rename_i q2 heq2
          have hq2 := (buildFromSteps_inv env _ q.1 q.2 hq).2 q2.1 q2.2 (by rw [heq2])
          dsimp only at he
          split at he
          · rename_i e1 heq3
            injection he with he
            rw [Prod.mk.injEq] at he
            rw [← he.1]
            exact bodyInv_publish env q2.2
              (AntonEvent.statusUpdate Phase.planning
                "Re-planning with newly built skills..." none) rfl rfl hq2
          · simp at he
    · simp at he
  · intro st' plan' he
    unfold phaseBuild at he
    split at he
    · split at he
      · simp at he
      · rename_i q heq1
        have hq := (buildFromDescs_inv env _ [] st h).2 q.1 q.2 (by rw [heq1])
        split at he
        · simp at he
        · rename_i q2 heq2
          have hq2 := (buildFromSteps_inv env _ q.1 q.2 hq).2 q2.1 q2.2 (by rw [heq2])
          dsimp only at he
          split at he
          · simp at he
          · rename_i plan2 heq3
            injection he with he
            rw [Prod.mk.injEq] at he
            rw [← he.1]
            exact bodyInv_publish env q2.2
              (AntonEvent.statusUpdate Phase.planning
                "Re-planning with newly built skills..." none) rfl rfl hq2
    · rename_i hnb
      injection he with he
      rw [Prod.mk.injEq] at he
      rw [← he.1]
      exact h

theorem execLoop_events_status (reg : SkillRegistry) (N : Nat) (eta0 : Option ℚ)
    (steps : List PlanStep) :
    ∀ i clock ev, ev ∈ (execLoop reg N eta0 steps i clock).1 →
      isTaskFailed ev = false ∧ isTaskComplete ev = false := by
  induction steps with
  | nil =>
    intro i clock ev hev
    simp [execLoop] at hev
  | cons step rest ih =>
    intro i clock ev hev
    rw [execLoop] at hev
    cases hget : reg.get step.skill_name with
    | none =>
      simp only [hget] at hev
      rcases List.mem_cons.mp hev with hev | hev
      · subst hev
        exact ⟨rfl, rfl⟩
      · exact ih (i + 1) clock ev hev
    | some sk =>
      simp only [hget] at hev
      cases hres : sk.execute step.parameters with
      | error e =>
        rw [hres] at hev
        simp at hev
        subst hev
        exact ⟨rfl, rfl⟩
      | ok res =>
        rw [hres] at hev
        simp only at hev
        rcases List.mem_cons.mp hev with hev | hev
        · subst hev
          exact ⟨rfl, rfl⟩
        · exact ih (i + 1) (clock + sk.duration step.parameters) ev hev

theorem phaseExec_inv (env : AgentEnv) (st : AgentSt) (plan : Plan)
    (h : BodyInv env st) :
    (∀ st' e, phaseExec env st plan = Except.error (st', e) → BodyInv env st') ∧
    (∀ st' er, phaseExec env st plan = Except.ok (st', er) → BodyInv env st') := by
  have hmid : BodyInv env
      { st with events := st.events ++ (Executor.execute_plan env.registry plan none).1 } := by
    obtain ⟨h1, h2, h3, h4⟩ := h
    have hz : ∀ ev ∈ (Executor.execute_plan env.registry plan none).1,
        isTaskFailed ev = false ∧ isTaskComplete ev = false := by
      intro ev hev
      exact execLoop_events_status env.registry plan.steps.length none plan.steps 0 0 ev
        (by simpa [Executor.execute_plan] using hev)
    refine ⟨?_, ?_, h3, h4⟩
    · rw [List.countP_append]
      simp only [h1, Nat.zero_add]
      rw [List.countP_eq_zero]
      intro ev hev
      simp [(hz ev hev).1]
    · rw [List.countP_append]
      simp only [h2, Nat.zero_add]
      rw [List.countP_eq_zero]
      intro ev hev
      simp [(hz ev hev).2]
  unfold phaseExec
  cases hout : (Executor.execute_plan env.registry plan none).2 with
  | error e =>
    constructor
    · intro st' e' he
      simp [hout] at he
      rw [← he.1]
      exact hmid
    · intro st' er he
      simp [hout] at he
  | ok er =>
    constructor
    · intro st' e' he
      simp [hout] at he
    · intro st' er' he
      simp [hout] at he
      rw [← he.1]
      exact hmid

theorem phaseComplete_inv (env : AgentEnv) (st : AgentSt) (summary : String)
    (h : BodyInv env st) :
    (∀ st' e, phaseComplete env st summary = Except.error (st', e) → BodyInv env st') ∧
    (∀ st', phaseComplete env st summary = Except.ok st' → BodyInv env st') := by
  constructor
  · intro st' e' he
    unfold phaseComplete at he
    split at he
    · split at he
      · split at he
        · injection he with he
          rw [Prod.mk.injEq] at he
          rw [← he.1]
          exact h
        · simp at he
      · simp at he
    · simp at he
  · intro st' he
    unfold phaseComplete at he
    split at he
    · split at he
      · split at he
        · simp at he
        · injection he with he
          rw [← he]
          exact bodyInv_act env st _ rfl h
      · injection he with he
        rw [← he]
        exact h
    · injection he with he
      rw [← he]
      exact h

theorem phaseLearn_inv (env : AgentEnv) (st : AgentSt) (h : BodyInv env st) :
    BodyInv env (phaseLearn env st) := by
  unfold phaseLearn
  by_cases hl : env.learnings = true
  · simp only [hl, if_true]
    cases env.extractRaw <;> exact h
  · simp only [hl, if_false, Bool.false_eq_true]
    exact h

theorem bodyInv_foldl_logAct (env : AgentEnv) (srs : List StepResult) :
    ∀ st, BodyInv env st →
    BodyInv env (srs.foldl (fun st _ => logAct env st "step") st) := by
  induction srs with
  | nil => intro st h; simpa using h
  | cons sr rest ih =>
    intro st h
    exact ih _ (bodyInv_logAct env st _ h)

/-- Any state the try body of `Agent.run` raises from satisfies `BodyInv`. -/
theorem runBody_error_inv (env : AgentEnv) (est0 : History) (task : String)
    (st : AgentSt) (e : String)
    (h : Agent.runBody env est0 task = Except.error (st, e)) : BodyInv env st := by
  have hinit : BodyInv env ⟨[], [], none, est0⟩ :=
    ⟨rfl, rfl, rfl, fun _ => rfl⟩
  unfold Agent.runBody at h
  split at h
  · rename_i p heq1
    injection h with h
    have hp := (phaseSession_inv env task _ hinit).1 p.1 p.2 (by rw [heq1])
    rw [h] at hp
    exact hp
  · rename_i st1 heq1
    have hst1 := (phaseSession_inv env task _ hinit).2 st1 heq1
    split at h
    · rename_i p heq2
      injection h with h
      have hp := (phaseMemory_inv env task st1 hst1).1 p.1 p.2 (by rw [heq2])
      rw [h] at hp
      exact hp
    · rename_i q heq2
      have hst2 := (phaseMemory_inv env task st1 hst1).2 q.1 q.2 (by rw [heq2])
      have hst3 : BodyInv env (publishSt (publishSt q.1
          (AntonEvent.statusUpdate Phase.skillDiscovery
            "Inspecting available skills..." none))
          (AntonEvent.statusUpdate Phase.planning
            "Analyzing task and creating plan..." none)) :=
        bodyInv_publish env _ _ rfl rfl (bodyInv_publish env _ _ rfl rfl hst2)
      dsimp only at h
      split at h
      · rename_i e1 heq3
        injection h with h
        rw [Prod.mk.injEq] at h
        rw [← h.1]
        exact hst3
      · rename_i plan heq3
        have hst4 := bodyInv_publish env _
          (AntonEvent.statusUpdate Phase.planning
            ("Plan ready — " ++ toString plan.steps.length ++ " step(s)")
            (Agent.getEta (logAct env (publishSt (publishSt q.1
              (AntonEvent.statusUpdate Phase.skillDiscovery
                "Inspecting available skills..." none))
              (AntonEvent.statusUpdate Phase.planning
                "Analyzing task and creating plan..." none)) "plan").est plan))
          rfl rfl (bodyInv_logAct env _ "plan" hst3)
        split at h
        · rename_i p heq4
          injection h with h
          have hp := (phaseBuild_inv env task q.2 _ plan hst4).1 p.1 p.2 (by rw [heq4])
          rw [h] at hp
          exact hp
        · rename_i r heq4
          have hst5 := (phaseBuild_inv env task q.2 _ plan hst4).2 r.1 r.2 (by rw [heq4])
          split at h
          · rename_i p heq5
            injection h with h
            have hp := (phaseExec_inv env r.1 r.2 hst5).1 p.1 p.2 (by rw [heq5])
            rw [h] at hp
            exact hp
          · rename_i s heq5
            have hst6 := (phaseExec_inv env r.1 r.2 hst5).2 s.1 s.2 (by rw [heq5])
            have hst7 : BodyInv env
                { s.2.step_results.foldl (fun st _ => logAct env st "step") s.1 with
                  est := recordDurations (s.2.step_results.foldl
                    (fun st _ => logAct env st "step") s.1).est s.2.step_results } :=
              bodyInv_setEst env _ _ (bodyInv_foldl_logAct env s.2.step_results s.1 hst6)
            split at h
            · rename_i p heq6
              injection h with h
              have hp := (phaseComplete_inv env _ _ hst7).1 p.1 p.2 (by rw [heq6])
              rw [h] at hp
              exact hp
            · simp at h

/-- C4: an exception raised anywhere in the phases of `Agent.run` (session
start, memory recall, planning, skill building, execution, summary/completion)
is caught exactly once at the top level: `Agent.run` still returns (it is a
total function — nothing re-raises to the caller), exactly one `TaskFailed`
carrying `str(exc)` is published and no `TaskComplete`; when a session store
is configured and a session was started, that session is marked failed with
`str(exc)` exactly once (and never otherwise); and in all cases — success or
failure — the relay task is cancelled and the bus queue unsubscribed before
`run` returns. -/
theorem C4_top_level_catch (env : AgentEnv) (est0 : History) (task : String) :
    (∀ st e, Agent.runBody env est0 task = Except.error (st, e) →
      countTaskFailed (Agent.run env est0 task).events = 1 ∧
      AntonEvent.taskFailed e ∈ (Agent.run env est0 task).events ∧
      countTaskComplete (Agent.run env est0 task).events = 0 ∧
      (∀ id, st.sid = some id → env.memory = true →
        countFailedActs (Agent.run env est0 task).acts = 1 ∧
        SessionAct.failedSession id e ∈ (Agent.run env est0 task).acts) ∧
      ((env.memory = false ∨ st.sid = none) →
        countFailedActs (Agent.run env est0 task).acts = 0)) ∧
    (Agent.run env est0 task).relayCancelled = true ∧
    (Agent.run env est0 task).unsubscribed = true := by
  refine ⟨?_, ?_, ?_⟩
  · intro st e hb
    obtain ⟨h1, h2, h3, h4⟩ := runBody_error_inv env est0 task st e hb
    unfold Agent.run
    rw [hb]
    by_cases hm : env.memory = true
    · cases hsid : st.sid with
      | none =>
        simp only [hm, if_true, hsid]
        refine ⟨?_, ?_, ?_, ?_, ?_⟩
        · simp [countTaskFailed, publishSt, List.countP_append, h1, isTaskFailed]
        · simp [publishSt]
        · simp [countTaskComplete, publishSt, List.countP_append, h2, isTaskComplete]
        · intro id hid
          simp at hid
        · intro _
          simp [countFailedActs, publishSt, h3]
      | some id0 =>
        simp only [hm, if_true, hsid]
        refine ⟨?_, ?_, ?_, ?_, ?_⟩
        · simp [countTaskFailed, publishSt, actSt, List.countP_append, h1, isTaskFailed]
        · simp [publishSt, actSt]
        · simp [countTaskComplete, publishSt, actSt, List.countP_append, h2,
            isTaskComplete]
        · intro id hid
          injection hid with hid
          subst hid
          intro _
          constructor
          · simp [countFailedActs, publishSt, actSt, List.countP_append, h3,
              isFailedAct]
          · simp [publishSt, actSt]
        · intro hor
          rcases hor with hmf | hsn
          · simp at hmf
          · simp at hsn
    · simp only [hm, if_false, Bool.false_eq_true]
      refine ⟨?_, ?_, ?_, ?_, ?_⟩
      · simp [countTaskFailed, publishSt, List.countP_append, h1, isTaskFailed]
      · simp [publishSt]
      · simp [countTaskComplete, publishSt, List.countP_append, h2, isTaskComplete]
      · intro id _ hmt
        exact hmt.elim
      · intro _
        simp [countFailedActs, publishSt, h3]
  · unfold Agent.run
    cases Agent.runBody env est0 task with
    | ok st => rfl
    | error p => rfl
  · unfold Agent.run
    cases Agent.runBody env est0 task with
    | ok st => rfl
    | error p => rfl

def C4env : AgentEnv :=
  { registry := ⟨[]⟩, memory := true, learnings := false, user_skills_dir := false,
    startSession := fun _ => Except.ok "s1",
    buildCtx := fun _ => Except.ok "",
    plannerCall := fun _ _ _ => Except.error "LLM connection failed",
    buildCall := fun _ => Except.ok none,
    completeSession := fun _ _ => Except.ok (),
    extractRaw := Except.ok () }

/-- Witness for C4: a run whose planning call raises. -/
theorem C4_top_level_catch_witness :
    Agent.runBody C4env [] "list files" = Except.error
      (⟨[AntonEvent.statusUpdate Phase.skillDiscovery
           "Inspecting available skills..." none,
         AntonEvent.statusUpdate Phase.planning
           "Analyzing task and creating plan..." none],
        [SessionAct.started "s1"], some "s1", []⟩, "LLM connection failed") ∧
    countTaskFailed (Agent.run C4env [] "list files").events = 1 ∧
    AntonEvent.taskFailed "LLM connection failed" ∈ (Agent.run C4env [] "list files").events ∧
    countTaskComplete (Agent.run C4env [] "list files").events = 0 ∧
    countFailedActs (Agent.run C4env [] "list files").acts = 1 ∧
    SessionAct.failedSession "s1" "LLM connection failed"
      ∈ (Agent.run C4env [] "list files").acts ∧
    (Agent.run C4env [] "list files").relayCancelled = true := by
  have hbody : Agent.runBody C4env [] "list files" = Except.error
      (⟨[AntonEvent.statusUpdate Phase.skillDiscovery
           "Inspecting available skills..." none,
         AntonEvent.statusUpdate Phase.planning
           "Analyzing task and creating plan..." none],
        [SessionAct.started "s1"], some "s1", []⟩, "LLM connection failed") := rfl
  obtain ⟨hmain, hrelay, _⟩ := C4_top_level_catch C4env [] "list files"
  obtain ⟨ha, hbev, hc, hd, _⟩ := hmain _ _ hbody
  exact ⟨hbody, ha, hbev, hc, (hd "s1" rfl rfl).1, (hd "s1" rfl rfl).2, hrelay⟩

theorem histGet_record (h : History) (m n : String) (d : ℚ) :
    histGet (TimeEstimator.record h n d) m
      = if m = n then histGet h m ++ [d] else histGet h m := by
  unfold TimeEstimator.record
  induction h with
  | nil =>
    by_cases hmn : m = n
    · subst hmn
      simp [dictAppendDur, histGet, List.lookup]
    · have hb : (m == n) = false := by simp [hmn]
      simp [dictAppendDur, histGet, List.lookup, hmn, hb]
  | cons kv rest ih =>
    obtain ⟨k, ds⟩ := kv
    by_cases hkn : k = n
    · subst hkn
      by_cases hmk : m = k
      · subst hmk
        simp [dictAppendDur, histGet, List.lookup]
      · have hb : (m == k) = false := by simp [hmk]
        simp [dictAppendDur, histGet, List.lookup, hmk, hb]
    · have hbkn : ¬(k = n) := hkn
      by_cases hmk : m = k
      · subst hmk
        have hmn : ¬(m = n) := hkn
        have hb : (m == m) = true := by simp
        simp [dictAppendDur, histGet, List.lookup, hkn, hmn, hb]
      · have hb : (m == k) = false := by simp [hmk]
        simp only [dictAppendDur, if_neg hkn, histGet, List.lookup, hb]
        simpa [histGet] using ih

/-- C10: after `Agent.run` executes a plan, only step durations strictly
greater than zero are recorded into the estimator history (`recordDurations`,
used in the run body): for each name the history gains exactly the positive
samples for that name, in order; the zero-duration `StepResult`s the executor
synthesizes for missing skills have `duration_seconds = 0` and therefore never
contribute a sample to any future ETA estimate. -/
theorem C10_zero_durations_never_recorded :
    (∀ h srs n, histGet (recordDurations h srs) n
        = histGet h n
          ++ ((srs.filter (fun sr => sr.skill_name == n
                && decide (0 < sr.duration_seconds))).map
              (fun sr => sr.duration_seconds))) ∧
    (∀ reg i step, reg.get step.skill_name = none →
      (stepResultOf reg i step).duration_seconds = 0) ∧
    (∀ h srs n, (∀ sr ∈ srs, sr.duration_seconds = 0) →
      histGet (recordDurations h srs) n = histGet h n) := by
  have hmain : ∀ srs (h : History) n, histGet (recordDurations h srs) n
      = histGet h n
        ++ ((srs.filter (fun sr => sr.skill_name == n
              && decide (0 < sr.duration_seconds))).map
            (fun sr => sr.duration_seconds)) := by
    intro srs
    induction srs with
    | nil => intro h n; simp [recordDurations]
    | cons sr rest ih =>
      intro h n
      by_cases hd : 0 < sr.duration_seconds
      · have hstep : recordDurations h (sr :: rest)
            = recordDurations (TimeEstimator.record h sr.skill_name sr.duration_seconds)
                rest := by
          simp [recordDurations, hd]
        rw [hstep, ih]
        by_cases hn : sr.skill_name = n
        · subst hn
          simp [histGet_record, hd, List.filter_cons]
        · have hbn : (sr.skill_name == n) = false := by
            simp [hn]
          have hn' : ¬(n = sr.skill_name) := fun hh => hn hh.symm
          simp [histGet_record, hn', List.filter_cons, hbn]
      · have hstep : recordDurations h (sr :: rest) = recordDurations h rest := by
          simp [recordDurations, hd]
        rw [hstep, ih]
        have hbd : decide (0 < sr.duration_seconds) = false := by
          simp [hd]
        simp [List.filter_cons, hbd]
  refine ⟨fun h srs n => hmain srs h n, ?_, ?_⟩
  · intro reg i step hnone
    simp [stepResultOf, hnone]
  · intro h srs n hz
    rw [hmain]
    have hfil : srs.filter (fun sr => sr.skill_name == n
        && decide (0 < sr.duration_seconds)) = [] := by
      rw [List.filter_eq_nil_iff]
      intro sr hsr
      simp [hz sr hsr]
    rw [hfil]
    simp

/-- Witness for C10: a positive-duration step is recorded, a zero-duration
"Skill not found" step is not. -/
theorem C10_zero_durations_never_recorded_witness :
    histGet (recordDurations [("a", [2])]
      [⟨0, "a", ⟨some (Value.vStr "ok"), []⟩, 3⟩,
       ⟨1, "b", ⟨none, [("error", "Skill not found: b")]⟩, 0⟩]) "a" = [2, 3] ∧
    histGet (recordDurations [("a", [2])]
      [⟨0, "a", ⟨some (Value.vStr "ok"), []⟩, 3⟩,
       ⟨1, "b", ⟨none, [("error", "Skill not found: b")]⟩, 0⟩]) "b" = [] ∧
    (stepResultOf ⟨[]⟩ 1 { skill_name := "b", description := "d" }).duration_seconds
      = 0 := by
  obtain ⟨h1, h2, _⟩ := C10_zero_durations_never_recorded
  refine ⟨?_, ?_, h2 ⟨[]⟩ 1 { skill_name := "b", description := "d" } rfl⟩
  · rw [h1]
    simp [histGet, List.lookup, List.filter]
  · rw [h1]
    simp [histGet, List.lookup, List.filter]

end Anton
